import Mathlib

/-!
Verification of the Healthcare-knowledge-Graph extraction pipeline.

The repository builds a biomedical knowledge graph from ChEMBL, Hetionet,
SIDER, UniChem and UniProt dumps.  This file gives a shallow embedding of the
core pipeline logic and proves properties about it:

  * `evidence_string` and the per-edge orientation normalizer of
    `hetionet_extract_to_csv.py` (the four-relation classifier with its
    direction defaulting and canonical-pair rules);
  * the `COALESCE(pref_name, syn, chembl_id)` name resolution and the
    `MIN(synonyms) GROUP BY molregno` deterministic synonym choice of
    `extract_chembl_sqlite_cli.py`, together with the target-nodes table
    construction;
  * the residual (unmapped id) computation of
    `map_chembl_to_drugbank_unichem_dump.py`;
  * `extract_pubchem_cid` and the dropna step of
    `map_sider_stitch_to_chembl_via_pubchem.py`;
  * the UniProt → Entrez mapping filter of `map_uniprot_to_entrez.py`.

Strings are modelled through their character lists; Python `str.strip`,
`str.lower` and SQL binary collation are given explicit executable
definitions below.
-/

namespace KG

/-- Characters stripped by Python `str.strip()` (whitespace at both ends),
modelled with the ASCII whitespace predicate. -/
def stripChars (cs : List Char) : List Char :=
  ((cs.dropWhile Char.isWhitespace).reverse.dropWhile Char.isWhitespace).reverse

/-- Python `s.strip()`. -/
def pyStrip (s : String) : String := ⟨stripChars s.data⟩

/-- Python `s.lower()` (ASCII model). -/
def pyLower (s : String) : String := ⟨s.data.map Char.toLower⟩

/-- Python `x or default` on an optional string: `None` and the empty string
are falsy and give the default. Models `(e.get("kind") or "")` and
`(e.get("direction") or "both")` in `hetionet_extract_to_csv.py`. -/
def pyOrStr (v : Option String) (dflt : String) : String :=
  match v with
  | none => dflt
  | some s => if s = "" then dflt else s

/-- Lexicographic comparison of character lists (bytewise/codepoint order,
matching Python string comparison and SQLite's BINARY collation). -/
def lexLe : List Char → List Char → Bool
  | [], _ => true
  | _ :: _, [] => false
  | a :: as, b :: bs => if a < b then true else if b < a then false else lexLe as bs

/-- Lexicographic `≤` on strings. -/
def strLe (a b : String) : Bool := lexLe a.data b.data

/-- Binary minimum of two strings, as computed by SQL `MIN` under the default
BINARY collation. -/
def strMin (a b : String) : String := if strLe a b then a else b

/-- Insert a string into a sorted list, keeping it sorted (helper for the
model of Python's `sorted`). -/
def insertSorted (x : String) : List String → List String
  | [] => [x]
  | y :: ys => if strLe x y then x :: y :: ys else y :: insertSorted x ys

/-- Python `sorted` on a list of strings (insertion sort; agrees with any
stable sort because equal strings are identical). -/
def sortStrings (l : List String) : List String :=
  l.foldr insertSorted []

/-- Model of `pandas.drop_duplicates` / Python `set` materialised in first-occurrence
order: keep the first occurrence of each element. -/
def dropDups {α : Type} [DecidableEq α] (l : List α) : List α :=
  l.foldl (fun acc x => if x ∈ acc then acc else acc.concat x) []

/-- Value of a digit string, as computed by Python `int` on an all-digit
string (leading zeros do not change the value). -/
def digitsToNat (cs : List Char) : Nat :=
  cs.foldl (fun a c => 10 * a + (c.toNat - 48)) 0

/-! ## Python values and the evidence extractor (`hetionet_extract_to_csv.py`) -/

/-- A Python value as found in a decoded Hetionet edge `data` payload. -/
inductive PyVal where
  | pnone : PyVal
  | pstr : String → PyVal
  | pint : Int → PyVal
  | plist : List PyVal → PyVal
  | pdict : List (String × PyVal) → PyVal

/-- Python truthiness test (`if not d`): `None`, `""`, `0`, `[]`, `{}` are
falsy. -/
def pyFalsy : PyVal → Bool
  | .pnone => true
  | .pstr s => s = ""
  | .pint n => n = 0
  | .plist xs => xs.isEmpty
  | .pdict kvs => kvs.isEmpty

mutual

/-- Python `repr` of a value (used by `str` on containers). -/
def pyRepr : PyVal → String
  | .pnone => "None"
  | .pstr s => "\x27" ++ s ++ "\x27"
  | .pint n => toString n
  | .plist xs => "[" ++ pyReprList xs ++ "]"
  | .pdict kvs => "\x7b" ++ pyReprDict kvs ++ "\x7d"

/-- Comma-separated `repr`s of list elements. -/
def pyReprList : List PyVal → String
  | [] => ""
  | [x] => pyRepr x
  | x :: y :: xs => pyRepr x ++ ", " ++ pyReprList (y :: xs)

/-- Comma-separated `repr`s of dict entries. -/
def pyReprDict : List (String × PyVal) → String
  | [] => ""
  | [(k, v)] => "\x27" ++ k ++ "\x27: " ++ pyRepr v
  | (k, v) :: e :: kvs => "\x27" ++ k ++ "\x27: " ++ pyRepr v ++ ", " ++ pyReprDict (e :: kvs)

end

/-- Python `str()` of a value: strings render bare, containers via `repr`. -/
def pyStr : PyVal → String
  | .pstr s => s
  | v => pyRepr v

mutual

/-- Model of `json.dumps(d, ensure_ascii=False, separators=(",", ":"))`: compact JSON
serialization (string escaping is not needed for the payloads modelled
here). -/
def jsonDumps : PyVal → String
  | .pnone => "null"
  | .pstr s => "\"" ++ s ++ "\""
  | .pint n => toString n
  | .plist xs => "[" ++ jsonDumpsList xs ++ "]"
  | .pdict kvs => "\x7b" ++ jsonDumpsDict kvs ++ "\x7d"

/-- Comma-separated compact JSON of list elements. -/
def jsonDumpsList : List PyVal → String
  | [] => ""
  | [x] => jsonDumps x
  | x :: y :: xs => jsonDumps x ++ "," ++ jsonDumpsList (y :: xs)

/-- Comma-separated compact JSON of dict entries. -/
def jsonDumpsDict : List (String × PyVal) → String
  | [] => ""
  | [(k, v)] => "\"" ++ k ++ "\":" ++ jsonDumps v
  | (k, v) :: e :: kvs => "\"" ++ k ++ "\":" ++ jsonDumps v ++ "," ++ jsonDumpsDict (e :: kvs)

end

/-- Python `d[k]` lookup on a dict modelled as an association list
(`"k" in d` is `(lookupKey d k).isSome`). -/
def lookupKey (kvs : List (String × PyVal)) (k : String) : Option PyVal :=
  (kvs.find? (fun p => p.1 = k)).map Prod.snd

/-- Function `evidence_string(d)` from `hetionet_extract_to_csv.py`: make a readable
evidence string from a Hetionet edge `data` payload.  Branches in priority
order: falsy payload → `""`; dict with a string `"source"` → that string;
dict with `"sources"` → sorted semicolon-join of the element strings (or
`str` of a non-container value); dict with `"pmids"` → a count summary
(`len` succeeds on strings, lists and dicts, otherwise the `except` branch
yields `"pmids"`); any other dict → compact JSON; non-dict truthy value →
`str(d)`. -/
def evidence_string (d : PyVal) : String :=
  if pyFalsy d then ""
  else
    match d with
    | .pdict kvs =>
      match lookupKey kvs "source" with
      | some (.pstr s) => s
      | _ =>
        match lookupKey kvs "sources" with
        | some (.plist xs) => String.intercalate ";" (sortStrings (xs.map pyStr))
        | some v => pyStr v
        | none =>
          match lookupKey kvs "pmids" with
          | some (.pstr s) => "pmids:" ++ toString s.data.length
          | some (.plist xs) => "pmids:" ++ toString xs.length
          | some (.pdict m) => "pmids:" ++ toString m.length
          | some _ => "pmids"
          | none => jsonDumps (.pdict kvs)
    | v => pyStr v

/-! ## Hetionet edge normalization (`hetionet_extract_to_csv.py`) -/

/-- A raw Hetionet relationship record: `kind`, optional `direction`,
`source_id` and `target_id` as (kind, identifier) pairs, and the opaque
`data` payload. -/
structure HetEdge where
  kind : Option String
  direction : Option String
  source_id : String × String
  target_id : String × String
  data : PyVal

/-- Computation `ekind = (e.get("kind") or "").lower().strip()`. -/
def normKind (k : Option String) : String := pyStrip (pyLower (pyOrStr k ""))

/-- Computation `direc = (e.get("direction") or "both").lower().strip()`: an absent (or
empty) direction tag defaults to `"both"`. -/
def normDirec (d : Option String) : String := pyStrip (pyLower (pyOrStr d "both"))

/-- A row appended to one of the four output edge lists. -/
inductive OutEdge where
  | drugTargets (drugbank_id entrez_id evidence : String)
  | drugTreats (drugbank_id doid evidence : String)
  | geneDisease (entrez_id doid evidence : String)
  | drugSE (drugbank_id umls_cui evidence : String)
deriving DecidableEq

/-- The body of the edge loop of `hetionet_extract_to_csv.py`, after `ekind`,
`direc`, the endpoint kinds/ids and the evidence string have been computed:
the `if`/`elif` chain that appends to `E_DRUG_TARGETS`, `E_DRUG_TREATS`,
`E_GENE_DISEASE` or `E_DRUG_SE`, or appends nothing. -/
def classifyKinded (ekind direc srcKind srcId tgtKind tgtId ev : String) :
    Option OutEdge :=
  if ekind = "binds" ∧ (direc = "forward" ∨ direc = "both") then
    if srcKind = "Compound" ∧ tgtKind = "Gene" then
      some (.drugTargets srcId tgtId ev)
    else if direc = "both" ∧ srcKind = "Gene" ∧ tgtKind = "Compound" then
      some (.drugTargets tgtId srcId ev)
    else none
  else if ekind = "treats" ∧ (direc = "forward" ∨ direc = "both") then
    if srcKind = "Compound" ∧ tgtKind = "Disease" then
      some (.drugTreats srcId tgtId ev)
    else if direc = "both" ∧ srcKind = "Disease" ∧ tgtKind = "Compound" then
      some (.drugTreats tgtId srcId ev)
    else none
  else if ekind = "associates" ∧ (direc = "both" ∨ direc = "forward") then
    if srcKind = "Gene" ∧ tgtKind = "Disease" then
      some (.geneDisease srcId tgtId ev)
    else if srcKind = "Disease" ∧ tgtKind = "Gene" then
      some (.geneDisease tgtId srcId ev)
    else none
  else if ekind = "causes" ∧ (direc = "forward" ∨ direc = "both") then
    if srcKind = "Compound" ∧ tgtKind = "Side Effect" then
      some (.drugSE srcId tgtId ev)
    else if direc = "both" ∧ srcKind = "Side Effect" ∧ tgtKind = "Compound" then
      some (.drugSE tgtId srcId ev)
    else none
  else none

/-- One iteration of the edge loop of `hetionet_extract_to_csv.py`: what the
loop emits (if anything) for a raw edge record. -/
def classifyEdge (e : HetEdge) : Option OutEdge :=
  classifyKinded (normKind e.kind) (normDirec e.direction)
    e.source_id.1 e.source_id.2 e.target_id.1 e.target_id.2
    (evidence_string e.data)

/-- Swap the two endpoints of a raw relationship record. -/
def swapEndpoints (e : HetEdge) : HetEdge :=
  { e with source_id := e.target_id, target_id := e.source_id }

/-- The written `edges_gene_disease.csv` table:
`pd.DataFrame(E_GENE_DISEASE).drop_duplicates()` where `E_GENE_DISEASE`
collects the `geneDisease` outputs of the edge loop. -/
def gene_disease_table (edges : List HetEdge) : List OutEdge :=
  dropDups (edges.filterMap fun e =>
    match classifyEdge e with
    | some (.geneDisease g d v) => some (OutEdge.geneDisease g d v)
    | _ => none)

/-! ## ChEMBL name resolution (`extract_chembl_sqlite_cli.py`) -/

/-- Expression `COALESCE(md.pref_name, s.syn, md.chembl_id) AS name`: the first
non-NULL value in priority order (the `WHERE md.chembl_id IS NOT NULL`
clause makes the last candidate non-null, hence the plain `String`
argument). -/
def resolve_name (pref_name syn : Option String) (chembl_id : String) : String :=
  match pref_name with
  | some s => s
  | none =>
    match syn with
    | some s => s
    | none => chembl_id

/-- Modelled from the spec: `resolve_name(candidates, fallback)` — the first
non-null candidate in priority order, or the fallback if every candidate is
null (§4.2 of the spec; used to compare the code's `COALESCE` against the
spec's contract). -/
def specFirstNonNull : List (Option String) → String → String
  | [], fb => fb
  | none :: rest, fb => specFirstNonNull rest fb
  | some v :: _, _ => v

/-- Aggregate `SELECT ms.molregno, MIN(ms.synonyms) ... GROUP BY ms.molregno`: the
SQL `MIN` aggregate over the (non-NULL) synonym rows of one molecule,
under the default BINARY collation. -/
def minSynonym (rows : List String) : Option String :=
  rows.foldr
    (fun x acc =>
      some (match acc with
            | none => x
            | some y => strMin x y))
    none

/-- The target-nodes table of `extract_chembl_sqlite_cli.py`:
`edges[["uniprot"]].drop_duplicates()` left-merged with the
`SELECT DISTINCT cs.accession, td.pref_name ...` result on `uniprot`, then
`fillna({"target_name": ""})`.  `edgeUniprot` is the `uniprot` column of the
edges table; `tdRows` are the (accession, pref_name) rows, `pref_name`
possibly NULL. -/
def buildTargets (edgeUniprot : List String)
    (tdRows : List (String × Option String)) : List (String × String) :=
  let left := dropDups edgeUniprot
  let right := dropDups tdRows
  left.flatMap fun u =>
    let ms := right.filter fun r => r.1 = u
    if ms.isEmpty then [(u, "")]
    else ms.map fun r => (u, r.2.getD "")

/-! ## ChEMBL → DrugBank residuals (`map_chembl_to_drugbank_unichem_dump.py`) -/

/-- Computation `df_drugs["chembl_id"].str.strip()` followed by
`drop_duplicates(subset=["chembl_id"])`, then `set(...)`: the seed id set in
first-occurrence order. -/
def all_ids (seeds : List String) : List String :=
  dropDups (seeds.map pyStrip)

/-- Computation `df_drugs.merge(df_map, on="chembl_id", how="inner")` followed by
`drop_duplicates(subset=["chembl_id", "drugbank_id"])`: the resolved
ChEMBL → DrugBank pairs (both UniChem columns whitespace-trimmed first, as
in the script). -/
def mergedPairs (seeds : List String) (mp : List (String × String)) :
    List (String × String) :=
  dropDups ((all_ids seeds).flatMap fun s =>
    (((mp.map fun r => (pyStrip r.1, pyStrip r.2)).filter fun r => r.1 = s).map
      fun r => (s, r.2)))

/-- Computation `mapped_ids = set(merged["chembl_id"])`: the left-column values present
in the resolved mapping. -/
def mapped_ids (seeds : List String) (mp : List (String × String)) :
    List String :=
  dropDups ((mergedPairs seeds mp).map Prod.fst)

/-- Computation `missing_ids = sorted(all_ids - mapped_ids)`: the residual set of
unmapped seed ids, sorted. -/
def missing_ids (seeds : List String) (mp : List (String × String)) :
    List String :=
  sortStrings ((all_ids seeds).filter fun s => ¬ s ∈ mapped_ids seeds mp)

/-! ## STITCH → PubChem parsing (`map_sider_stitch_to_chembl_via_pubchem.py`) -/

/-- Function `extract_pubchem_cid(stitch_id)`: strip the id, then match the regex
`CID0*([1-9]\d*|0)$` anchored at the start and return `int(group(1))`, or
`None` on no match.  The regex matches exactly when `"CID"` is followed by a
nonempty run of digits reaching the end of the string; the group strips the
leading zeros matched by `0*`, which does not change the integer value, so
the result is the numeric value of the digit run. -/
def extract_pubchem_cid (stitch_id : String) : Option Nat :=
  match (pyStrip stitch_id).data with
  | 'C' :: 'I' :: 'D' :: rest =>
    if rest ≠ [] ∧ rest.all Char.isDigit then some (digitsToNat rest) else none
  | _ => none

/-- Computation `edges["pubchem_cid"] = edges["stitch_id"].apply(extract_pubchem_cid)`
followed by `edges.dropna(subset=["pubchem_cid"])`: rows are
(stitch_id, umls_cui) pairs; rows whose id fails the pattern are excluded,
surviving rows carry their integer CID. -/
def dropUnparsed (rows : List (String × String)) :
    List (String × String × Nat) :=
  rows.filterMap fun r =>
    (extract_pubchem_cid r.1).map fun c => (r.1, r.2, c)

/-! ## UniProt → Entrez mapping (`map_uniprot_to_entrez.py`) -/

/-- Computation `set(df["uniprot"].str.strip().dropna().unique())`: the whitespace-trimmed
uniprot-id set taken from the target-nodes table (a column with possible
nulls). -/
def target_uniprot_set (targets : List (Option String)) : List String :=
  dropDups ((targets.map (Option.map pyStrip)).filterMap id)

/-- The row loop of `map_uniprot_to_entrez.py`: keep only lines with exactly
three tab-separated fields whose mapping type is `"GeneID"` and whose
uniprot id is in the target set, collect (uniprot, entrez) pairs, then
`drop_duplicates`. -/
def uniprotToEntrez (targets : List (Option String))
    (lines : List (List String)) : List (String × String) :=
  dropDups (lines.filterMap fun row =>
    match row with
    | [u, t, v] =>
      if t = "GeneID" ∧ u ∈ target_uniprot_set targets then some (u, v) else none
    | _ => none)

/-! ## The remaining written output tables (for the dedup invariant)

Each written CSV of the five extraction scripts is modelled here as the list
of rows the script passes to `to_csv`.
-/

/-- A raw Hetionet node record: `kind`, the stringified `identifier`
(`str(ident)` in the script), and `name` (`n.get("name", "")` reads a
missing name as the empty string). -/
structure HetNode where
  kind : String
  identifier : String
  name : String

/-- Rows collected into `compound_rows` by the node loop of
`hetionet_extract_to_csv.py`: (drugbank_id, name) for nodes of kind
`Compound`. -/
def compound_rows (nodes : List HetNode) : List (String × String) :=
  nodes.filterMap fun n =>
    if n.kind = "Compound" then some (n.identifier, n.name) else none

/-- Rows collected into `gene_rows`: (entrez_id, symbol) for nodes of kind
`Gene`. -/
def gene_rows (nodes : List HetNode) : List (String × String) :=
  nodes.filterMap fun n =>
    if n.kind = "Gene" then some (n.identifier, n.name) else none

/-- Rows collected into `disease_rows`: (doid, name) for nodes of kind
`Disease`. -/
def disease_rows (nodes : List HetNode) : List (String × String) :=
  nodes.filterMap fun n =>
    if n.kind = "Disease" then some (n.identifier, n.name) else none

/-- Rows collected into `se_rows`: (umls_cui, name) for nodes of kind
`Side Effect`. -/
def se_rows (nodes : List HetNode) : List (String × String) :=
  nodes.filterMap fun n =>
    if n.kind = "Side Effect" then some (n.identifier, n.name) else none

/-- The written `nodes_compound.csv`:
`pd.DataFrame(compound_rows).drop_duplicates()`. -/
def nodes_compound_table (nodes : List HetNode) : List (String × String) :=
  dropDups (compound_rows nodes)

/-- The written `nodes_gene.csv`. -/
def nodes_gene_table (nodes : List HetNode) : List (String × String) :=
  dropDups (gene_rows nodes)

/-- The written `nodes_disease.csv`. -/
def nodes_disease_table (nodes : List HetNode) : List (String × String) :=
  dropDups (disease_rows nodes)

/-- The written `nodes_sideeffect.csv`. -/
def nodes_sideeffect_table (nodes : List HetNode) : List (String × String) :=
  dropDups (se_rows nodes)

/-- The written `edges_drug_targets.csv`:
`pd.DataFrame(E_DRUG_TARGETS).drop_duplicates()` where `E_DRUG_TARGETS`
collects the `drugTargets` outputs of the edge loop. -/
def drug_targets_table (edges : List HetEdge) : List OutEdge :=
  dropDups (edges.filterMap fun e =>
    match classifyEdge e with
    | some (.drugTargets a b v) => some (OutEdge.drugTargets a b v)
    | _ => none)

/-- The written `edges_drug_treats.csv`. -/
def drug_treats_table (edges : List HetEdge) : List OutEdge :=
  dropDups (edges.filterMap fun e =>
    match classifyEdge e with
    | some (.drugTreats a b v) => some (OutEdge.drugTreats a b v)
    | _ => none)

/-- The written `edges_drug_sideeffect.csv`. -/
def drug_se_table (edges : List HetEdge) : List OutEdge :=
  dropDups (edges.filterMap fun e =>
    match classifyEdge e with
    | some (.drugSE a b v) => some (OutEdge.drugSE a b v)
    | _ => none)

/-- The written `nodes_drug_chembl_<suffix>.csv` of
`extract_chembl_sqlite_cli.py`: the `q_drugs` result rows
(chembl_id, name) pass through `drop_duplicates()` before `to_csv`. -/
def drugs_table (rows : List (String × String)) : List (String × String) :=
  dropDups rows

/-- The written `edges_drug_targets_chembl_<suffix>.csv`: the `q_edges`
result rows (chembl_id, uniprot, mechanism, action_type) pass through
`drop_duplicates()` before `to_csv`. -/
def edges_drug_targets_chembl (rows : List (String × String × String × String)) :
    List (String × String × String × String) :=
  dropDups rows

/-- A SIDER `meddra_all_se.tsv` row, restricted to the three columns the
script projects (`method` and `meddra_type` appear in no output). -/
structure SiderRow where
  stitch_id : String
  umls_cui : String
  side_effect_name : String

/-- The written `nodes_side_effect_sider.csv` of `extract_sider.py`:
`all_se[["umls_cui","side_effect_name"]].drop_duplicates()`. -/
def se_nodes (allSe : List SiderRow) : List (String × String) :=
  dropDups (allSe.map fun r => (r.umls_cui, r.side_effect_name))

/-- The `edges` intermediate of `extract_sider.py`:
`all_se[["stitch_id","umls_cui"]].drop_duplicates()`. -/
def sider_edges (allSe : List SiderRow) : List (String × String) :=
  dropDups (allSe.map fun r => (r.stitch_id, r.umls_cui))

/-- Helper for the left merge of `extract_sider.py`: the rows the merge
produces for one edge key `e` — the matching frequency rows re-keyed by `e`,
or a single row with NaN (here `none`) frequency bounds when none match. -/
def freqRowsFor
    (freq : List (String × String × Option String × Option String))
    (e : String × String) :
    List (String × String × Option String × Option String) :=
  if (freq.filter fun r => r.1 = e.1 ∧ r.2.1 = e.2).isEmpty then
    [(e.1, e.2, none, none)]
  else
    (freq.filter fun r => r.1 = e.1 ∧ r.2.1 = e.2).map fun r =>
      (e.1, e.2, r.2.2.1, r.2.2.2)

/-- The written `edges_drug_sideeffect_stitch.csv` of `extract_sider.py`:
`edges.merge(freq, on=["stitch_id","umls_cui"], how="left")`, where `edges`
is the deduplicated key projection of `all_se` and `freq` the deduplicated
projection `freq[["stitch_id","umls_cui","frequency_lower",
"frequency_upper"]]` (frequency cells may be missing, hence `Option`). -/
def edges_freq (allSe : List SiderRow)
    (freqRows : List (String × String × Option String × Option String)) :
    List (String × String × Option String × Option String) :=
  (sider_edges allSe).flatMap (freqRowsFor (dropDups freqRows))

/-- Insert an element into a sorted list under a Bool comparison (generic
helper for the model of `pandas.sort_values`). -/
def insertSortedBy {α : Type} (le : α → α → Bool) (x : α) :
    List α → List α
  | [] => [x]
  | y :: ys => if le x y then x :: y :: ys else y :: insertSortedBy le x ys

/-- Model of `pandas.sort_values` under a Bool comparison (insertion sort;
only the fact that it permutes its input matters below). -/
def sortBy {α : Type} (le : α → α → Bool) (l : List α) : List α :=
  l.foldr (insertSortedBy le) []

/-- Sort key of `sort_values(["stitch_id", "chembl_id", "umls_cui"])` on
rows (stitch_id, pubchem_cid, chembl_id, umls_cui) in
`map_sider_stitch_to_chembl_via_pubchem.py`. -/
def mapRowLe (a b : String × Nat × String × String) : Bool :=
  if a.1 = b.1 then
    if a.2.2.1 = b.2.2.1 then strLe a.2.2.2 b.2.2.2
    else strLe a.2.2.1 b.2.2.1
  else strLe a.1 b.1

/-- The written `sider_stitch_to_chembl_full.csv` of
`map_sider_stitch_to_chembl_via_pubchem.py`.  `edges` are the SIDER
(stitch_id, umls_cui) rows: the script strips `stitch_id`, applies
`extract_pubchem_cid` and drops unparseable rows (`dropUnparsed`).  `uc`
models the inverted UniChem rows (pubchem_cid, chembl_id) after the
script's numeric coercion/dropna/strip; the script then applies
`drop_duplicates`.  The inner merge on `pubchem_cid` is followed by the
column projection [stitch_id, pubchem_cid, chembl_id, umls_cui],
`drop_duplicates()` and `sort_values`. -/
def map_full (edges : List (String × String)) (uc : List (Nat × String)) :
    List (String × Nat × String × String) :=
  let withCid := dropUnparsed (edges.map fun r => (pyStrip r.1, r.2))
  let ucd := dropDups uc
  let merged := withCid.flatMap fun e =>
    (ucd.filter fun r => r.1 = e.2.2).map fun r => (e.1, e.2.1, e.2.2, r.2)
  sortBy mapRowLe (dropDups (merged.map fun m => (m.1, m.2.2.1, m.2.2.2, m.2.1)))

/-- The written `sider_stitch_to_chembl_phase4.csv`:
`map_full[map_full["chembl_id"].isin(p4_ids)]`. -/
def map_phase4 (edges : List (String × String)) (uc : List (Nat × String))
    (p4ids : List String) : List (String × Nat × String × String) :=
  (map_full edges uc).filter fun m => m.2.2.1 ∈ p4ids

/-! ## Infrastructure lemmas -/

theorem mem_foldl_dedup {α : Type} [DecidableEq α] (l : List α) :
    ∀ (acc : List α) (x : α),
      (x ∈ l.foldl (fun acc y => if y ∈ acc then acc else acc.concat y) acc) ↔
        x ∈ acc ∨ x ∈ l := by
  induction l with
  | nil => intro acc x; simp
  | cons y l ih =>
    intro acc x
    rw [List.foldl_cons, ih]
    by_cases hy : y ∈ acc
    · rw [if_pos hy]
      constructor
      · rintro (h | h)
        · exact Or.inl h
        · exact Or.inr (List.mem_cons_of_mem _ h)
      · rintro (h | h)
        · exact Or.inl h
        · rcases List.mem_cons.mp h with h | h
          · exact Or.inl (h ▸ hy)
          · exact Or.inr h
    · rw [if_neg hy]
      simp only [List.concat_eq_append, List.mem_append, List.mem_singleton,
        List.mem_cons]
      tauto

theorem mem_dropDups {α : Type} [DecidableEq α] (l : List α) (x : α) :
    x ∈ dropDups l ↔ x ∈ l := by
  rw [dropDups, mem_foldl_dedup]
  simp

theorem nodup_foldl_dedup {α : Type} [DecidableEq α] (l : List α) :
    ∀ acc : List α, acc.Nodup →
      (l.foldl (fun acc y => if y ∈ acc then acc else acc.concat y) acc).Nodup := by
  induction l with
  | nil => intro acc h; exact h
  | cons y l ih =>
    intro acc h
    rw [List.foldl_cons]
    apply ih
    by_cases hy : y ∈ acc
    · rw [if_pos hy]; exact h
    · rw [if_neg hy]
      simp only [List.concat_eq_append, List.nodup_append, List.nodup_singleton,
        List.disjoint_singleton]
      exact ⟨h, trivial, hy⟩

theorem nodup_dropDups {α : Type} [DecidableEq α] (l : List α) :
    (dropDups l).Nodup :=
  nodup_foldl_dedup l [] List.nodup_nil

theorem mem_insertSorted (x y : String) (l : List String) :
    x ∈ insertSorted y l ↔ x = y ∨ x ∈ l := by
  induction l with
  | nil => simp [insertSorted]
  | cons z zs ih =>
    rw [insertSorted]
    by_cases h : strLe y z
    · simp only [if_pos h, List.mem_cons]
    · simp only [if_neg h, List.mem_cons, ih]
      tauto

theorem mem_sortStrings (x : String) (l : List String) :
    x ∈ sortStrings l ↔ x ∈ l := by
  induction l with
  | nil => simp [sortStrings]
  | cons y ys ih =>
    rw [sortStrings, List.foldr_cons]
    rw [show List.foldr insertSorted [] ys = sortStrings ys from rfl] at *
    rw [mem_insertSorted, ih, List.mem_cons]

/-! ## Lexicographic-order lemmas -/

theorem lexLe_refl (l : List Char) : lexLe l l = true := by
  induction l with
  | nil => rfl
  | cons a as ih => simp [lexLe, lt_irrefl, ih]

theorem lexLe_total (as bs : List Char) :
    lexLe as bs = true ∨ lexLe bs as = true := by
  induction as generalizing bs with
  | nil => exact Or.inl rfl
  | cons a as ih =>
    cases bs with
    | nil => exact Or.inr rfl
    | cons b bs =>
      rcases lt_trichotomy a b with h | h | h
      · exact Or.inl (by simp [lexLe, h])
      · subst h
        rcases ih bs with h | h
        · exact Or.inl (by simp [lexLe, lt_irrefl, h])
        · exact Or.inr (by simp [lexLe, lt_irrefl, h])
      · exact Or.inr (by simp [lexLe, h])

theorem lexLe_antisymm (as : List Char) :
    ∀ bs, lexLe as bs = true → lexLe bs as = true → as = bs := by
  induction as with
  | nil =>
    intro bs _ h2
    cases bs with
    | nil => rfl
    | cons b bs => simp [lexLe] at h2
  | cons a as ih =>
    intro bs h1 h2
    cases bs with
    | nil => simp [lexLe] at h1
    | cons b bs =>
      rcases lt_trichotomy a b with h | h | h
      · rw [lexLe, if_neg (asymm h), if_pos h] at h2
        exact absurd h2 (by simp)
      · subst h
        rw [lexLe, if_neg (lt_irrefl a), if_neg (lt_irrefl a)] at h1 h2
        rw [ih bs h1 h2]
      · rw [lexLe, if_neg (asymm h), if_pos h] at h1
        exact absurd h1 (by simp)

theorem lexLe_trans (as : List Char) :
    ∀ bs cs, lexLe as bs = true → lexLe bs cs = true → lexLe as cs = true := by
  induction as with
  | nil => intro bs cs _ _; rfl
  | cons a as ih =>
    intro bs cs h1 h2
    cases bs with
    | nil => simp [lexLe] at h1
    | cons b bs =>
      cases cs with
      | nil => simp [lexLe] at h2
      | cons c cs =>
        rcases lt_trichotomy a b with hab | hab | hab
        · rcases lt_trichotomy b c with hbc | hbc | hbc
          · simp [lexLe, lt_trans hab hbc]
          · subst hbc; simp [lexLe, hab]
          · rw [lexLe, if_neg (asymm hbc), if_pos hbc] at h2
            exact absurd h2 (by simp)
        · subst hab
          rw [lexLe, if_neg (lt_irrefl a), if_neg (lt_irrefl a)] at h1
          rcases lt_trichotomy a c with hac | hac | hac
          · simp [lexLe, hac]
          · subst hac
            rw [lexLe, if_neg (lt_irrefl a), if_neg (lt_irrefl a)] at h2 ⊢
            exact ih bs cs h1 h2
          · rw [lexLe, if_neg (asymm hac), if_pos hac] at h2
            exact absurd h2 (by simp)
        · rw [lexLe, if_neg (asymm hab), if_pos hab] at h1
          exact absurd h1 (by simp)

theorem strLe_refl (a : String) : strLe a a = true := lexLe_refl a.data

theorem strLe_total (a b : String) : strLe a b = true ∨ strLe b a = true :=
  lexLe_total a.data b.data

theorem strLe_antisymm {a b : String} (h1 : strLe a b = true)
    (h2 : strLe b a = true) : a = b :=
  String.ext (lexLe_antisymm a.data b.data h1 h2)

theorem strLe_trans {a b c : String} (h1 : strLe a b = true)
    (h2 : strLe b c = true) : strLe a c = true :=
  lexLe_trans a.data b.data c.data h1 h2

theorem strMin_comm (a b : String) : strMin a b = strMin b a := by
  by_cases h1 : strLe a b = true <;> by_cases h2 : strLe b a = true
  · rw [strMin, strMin, if_pos h1, if_pos h2]
    exact strLe_antisymm h1 h2
  · rw [strMin, strMin, if_pos h1, if_neg h2]
  · rw [strMin, strMin, if_neg h1, if_pos h2]
  · rcases strLe_total a b with h | h
    · exact absurd h h1
    · exact absurd h h2

theorem strMin_assoc (a b c : String) :
    strMin (strMin a b) c = strMin a (strMin b c) := by
  by_cases hab : strLe a b = true <;> by_cases hbc : strLe b c = true
  · have hac : strLe a c = true := strLe_trans hab hbc
    simp [strMin, hab, hbc, hac]
  · simp [strMin, hab, hbc]
  · simp [strMin, hab, hbc]
  · have hcb : strLe c b = true := (strLe_total b c).resolve_left hbc
    have hac : ¬ strLe a c = true := fun h => hab (strLe_trans h hcb)
    simp [strMin, hab, hbc, hac]

theorem strMin_left_comm (a b c : String) :
    strMin a (strMin b c) = strMin b (strMin a c) := by
  rw [← strMin_assoc, strMin_comm a b, strMin_assoc]

/-! ## Synonym-minimum lemmas -/

theorem minSynonym_perm {l l' : List String} (h : List.Perm l l') :
    minSynonym l = minSynonym l' := by
  have inst : LeftCommutative
      (fun (x : String) (acc : Option String) =>
        some (match acc with | none => x | some y => strMin x y)) := by
    constructor
    intro a₁ a₂ b
    cases b with
    | none => simp [strMin_comm]
    | some z => simp [strMin_left_comm]
  exact @List.Perm.foldr_eq _ _ _ _ _ inst h none

theorem minSynonym_min : ∀ (l : List String) (m : String),
    minSynonym l = some m → m ∈ l ∧ ∀ x ∈ l, strLe m x = true := by
  intro l
  induction l with
  | nil => intro m h; exact absurd h (by simp [minSynonym])
  | cons x xs ih =>
    intro m h
    cases xs with
    | nil =>
      have hm : m = x := by
        have : minSynonym [x] = some x := rfl
        rw [this] at h
        exact (Option.some.injEq _ _ ▸ h).symm
      subst hm
      refine ⟨List.mem_cons_self m [], ?_⟩
      intro y hy
      rcases List.mem_cons.mp hy with hy | hy
      · rw [hy]; exact strLe_refl m
      · exact absurd hy (List.not_mem_nil y)
    | cons z zs =>
      obtain ⟨w, hw⟩ : ∃ w, minSynonym (z :: zs) = some w := ⟨_, rfl⟩
      have hrec := ih w hw
      have key : minSynonym (x :: z :: zs) =
          some (match minSynonym (z :: zs) with | none => x | some y => strMin x y) := rfl
      rw [hw] at key
      have hm : m = strMin x w := by
        rw [key] at h
        exact (Option.some.injEq _ _ ▸ h).symm
      by_cases hxw : strLe x w = true
      · have hmx : m = x := by rw [hm, strMin, if_pos hxw]
        subst hmx
        refine ⟨List.mem_cons_self m _, ?_⟩
        intro y hy
        rcases List.mem_cons.mp hy with hy | hy
        · rw [hy]; exact strLe_refl m
        · exact strLe_trans hxw (hrec.2 y hy)
      · have hmw : m = w := by rw [hm, strMin, if_neg hxw]
        subst hmw
        refine ⟨List.mem_cons_of_mem _ hrec.1, ?_⟩
        intro y hy
        rcases List.mem_cons.mp hy with hy | hy
        · rw [hy]
          exact (strLe_total x m).resolve_left hxw
        · exact hrec.2 y hy

/-! ## Claim theorems -/

/-- C8: when an entity has several synonym rows, the `MIN(ms.synonyms)`
aggregate of `q_syn` in `extract_chembl_sqlite_cli.py` picks the same
synonym on every run over identical inputs: the choice is invariant under
any reordering of the rows (never an order-dependent "first returned" row),
and the chosen synonym is the lexicographically smallest one. -/
theorem minSynonym_deterministic_lex_min (l l' : List String)
    (h : List.Perm l l') :
    minSynonym l = minSynonym l' ∧
      ∀ m, minSynonym l = some m → m ∈ l ∧ ∀ x ∈ l, strLe m x = true :=
  ⟨minSynonym_perm h, fun m hm => minSynonym_min l m hm⟩

/-- Witness for C8: two synonym rows in either order give the same choice,
namely the lexicographically smaller string. -/
theorem minSynonym_deterministic_lex_min_witness :
    minSynonym ["Paracetamol", "Acetaminophen"] =
        minSynonym ["Acetaminophen", "Paracetamol"] ∧
      "Acetaminophen" ∈ ["Paracetamol", "Acetaminophen"] ∧
        ∀ x ∈ ["Paracetamol", "Acetaminophen"], strLe "Acetaminophen" x = true := by
  have h := minSynonym_deterministic_lex_min
    ["Paracetamol", "Acetaminophen"] ["Acetaminophen", "Paracetamol"]
    (List.Perm.swap "Acetaminophen" "Paracetamol" [])
  exact ⟨h.1, h.2 "Acetaminophen" (by decide)⟩

/-- C4 counterexample: the claim says `resolve_name` never returns an empty
string, but `COALESCE` skips only NULLs: an empty (non-null) preferred name
is returned as-is, giving an empty result. -/
theorem resolve_name_empty_counterexample :
    resolve_name (some "") none "CHEMBL25" = "" := rfl

/-- C4 (amended): `resolve_name` is total (never null) and equals the first
non-null candidate in priority order [preferred name, synonym], falling back
to the entity's own `chembl_id` when every candidate is null; it is not
guaranteed non-empty, since the first non-null candidate may itself be the
empty string. -/
theorem resolve_name_first_non_null (p s : Option String) (c : String) :
    resolve_name p s c = specFirstNonNull [p, s] c := by
  cases p <;> cases s <;> rfl

/-- C5: the residual (unmapped) set of
`map_chembl_to_drugbank_unichem_dump.py` equals exactly the seed ids minus
the left-column values present in the resolved mapping, and no identifier
appears both in the resolved mapping's left column and in the residual
output. -/
theorem missing_ids_exact_residual (seeds : List String)
    (mp : List (String × String)) (x : String) :
    (x ∈ missing_ids seeds mp ↔
        x ∈ all_ids seeds ∧ ¬ x ∈ mapped_ids seeds mp) ∧
      ¬ (x ∈ missing_ids seeds mp ∧ x ∈ mapped_ids seeds mp) := by
  have hmem : x ∈ missing_ids seeds mp ↔
      x ∈ all_ids seeds ∧ ¬ x ∈ mapped_ids seeds mp := by
    rw [missing_ids, mem_sortStrings, List.mem_filter]
    simp only [decide_eq_true_eq]
  exact ⟨hmem, fun ⟨h1, h2⟩ => (hmem.mp h1).2 h2⟩

/-! ## Hetionet orientation theorems -/

theorem classifyKinded_associates_swap (d sk si tk ti ev : String)
    (hd : d = "both" ∨ d = "forward") :
    classifyKinded "associates" d tk ti sk si ev =
      classifyKinded "associates" d sk si tk ti ev := by
  unfold classifyKinded
  have hnb : ¬ (("associates" : String) = "binds" ∧
      (d = "forward" ∨ d = "both")) := fun h => absurd h.1 (by decide)
  have hnt : ¬ (("associates" : String) = "treats" ∧
      (d = "forward" ∨ d = "both")) := fun h => absurd h.1 (by decide)
  simp only [if_neg hnb, if_neg hnt,
    if_pos (⟨rfl, hd⟩ :
      ("associates" : String) = "associates" ∧ (d = "both" ∨ d = "forward"))]
  by_cases h1 : sk = "Gene" <;> by_cases h2 : tk = "Disease" <;>
    by_cases h3 : sk = "Disease" <;> by_cases h4 : tk = "Gene" <;> simp_all

/-- C1: for a gene–disease `associates` record whose direction tag is `both`
or `forward`, the edge loop of `hetionet_extract_to_csv.py` produces the
same canonical Gene→Disease edge (same entrez_id, doid, evidence) whichever
endpoint appears first in the raw record: swapping source and target yields
an identical output. -/
theorem associates_swap_same_edge (e : HetEdge)
    (hk : e.kind = some "associates")
    (hd : e.direction = some "both" ∨ e.direction = some "forward") :
    classifyEdge (swapEndpoints e) = classifyEdge e := by
  rcases hd with hd | hd
  · rw [classifyEdge, classifyEdge, swapEndpoints, hk, hd]
    rw [show normKind (some "associates") = "associates" from by decide,
      show normDirec (some "both") = "both" from by decide]
    exact classifyKinded_associates_swap "both" e.source_id.1 e.source_id.2
      e.target_id.1 e.target_id.2 (evidence_string e.data) (Or.inl rfl)
  · rw [classifyEdge, classifyEdge, swapEndpoints, hk, hd]
    rw [show normKind (some "associates") = "associates" from by decide,
      show normDirec (some "forward") = "forward" from by decide]
    exact classifyKinded_associates_swap "forward" e.source_id.1 e.source_id.2
      e.target_id.1 e.target_id.2 (evidence_string e.data) (Or.inr rfl)

/-- Witness for C1: a concrete `associates` record and its endpoint-swapped
twin produce the identical Gene→Disease edge. -/
theorem associates_swap_same_edge_witness :
    classifyEdge (swapEndpoints
        ⟨some "associates", some "both", ("Gene", "7157"),
          ("Disease", "DOID:1612"), .pnone⟩) =
      classifyEdge
        ⟨some "associates", some "both", ("Gene", "7157"),
          ("Disease", "DOID:1612"), .pnone⟩ ∧
    classifyEdge
        ⟨some "associates", some "both", ("Gene", "7157"),
          ("Disease", "DOID:1612"), .pnone⟩ =
      some (.geneDisease "7157" "DOID:1612" "") :=
  ⟨associates_swap_same_edge _ rfl (Or.inl rfl), by decide⟩

/-- C2 counterexample, in two parts against the two clauses of the claim.
First clause ("absent direction with swapped endpoint kinds drops the
record"): a `binds` record with an absent direction tag and swapped endpoint
kinds (Gene source, Compound target) is NOT dropped — the direction defaults
to `"both"` and the loop emits the edge swapped into the canonical
Compound→Gene order.  Second clause ("only a direction of `forward` or
absence with endpoints already in canonical order emits the edge as-is"): a
record with the explicit direction tag `both` and canonical endpoints is
also emitted as-is, so `forward`/absence are not the only such cases. -/
theorem binds_absent_swapped_not_dropped :
    (classifyEdge
          ⟨some "binds", none, ("Gene", "5594"), ("Compound", "DB00316"),
            .pnone⟩ =
        some (.drugTargets "DB00316" "5594" "") ∧
      classifyEdge
          ⟨some "binds", none, ("Gene", "5594"), ("Compound", "DB00316"),
            .pnone⟩ ≠ none) ∧
    classifyEdge
        ⟨some "binds", some "both", ("Compound", "DB01050"), ("Gene", "5743"),
          .pnone⟩ =
      some (.drugTargets "DB01050" "5743" "") := by
  refine ⟨⟨by decide, by decide⟩, by decide⟩

/-- C2 (amended): in the edge loop an absent direction tag defaults to
`"both"`, so a `binds` record with absent direction and swapped endpoint
kinds is emitted swapped into the canonical Compound→Gene order (not
dropped); a direction of `forward`, `both`, or absence with endpoints
already in canonical order emits the edge as-is; a `forward` record with
swapped endpoint kinds is the one that is dropped. -/
theorem binds_absent_direction_defaults_to_both (e : HetEdge)
    (hk : e.kind = some "binds") :
    (e.direction = none → e.source_id.1 = "Gene" → e.target_id.1 = "Compound" →
        classifyEdge e =
          some (.drugTargets e.target_id.2 e.source_id.2
            (evidence_string e.data)))
    ∧ (e.direction = none → e.source_id.1 = "Compound" →
        e.target_id.1 = "Gene" →
        classifyEdge e =
          some (.drugTargets e.source_id.2 e.target_id.2
            (evidence_string e.data)))
    ∧ (e.direction = some "forward" → e.source_id.1 = "Compound" →
        e.target_id.1 = "Gene" →
        classifyEdge e =
          some (.drugTargets e.source_id.2 e.target_id.2
            (evidence_string e.data)))
    ∧ (e.direction = some "both" → e.source_id.1 = "Compound" →
        e.target_id.1 = "Gene" →
        classifyEdge e =
          some (.drugTargets e.source_id.2 e.target_id.2
            (evidence_string e.data)))
    ∧ (e.direction = some "forward" → e.source_id.1 = "Gene" →
        e.target_id.1 = "Compound" → classifyEdge e = none) := by
  refine ⟨?_, ?_, ?_, ?_, ?_⟩ <;> intro hd hs ht
  · rw [classifyEdge, hk, hd,
      show normKind (some "binds") = "binds" from by decide,
      show normDirec none = "both" from by decide]
    unfold classifyKinded
    rw [if_pos (⟨rfl, Or.inr rfl⟩ :
        ("binds" : String) = "binds" ∧
          (("both" : String) = "forward" ∨ ("both" : String) = "both"))]
    rw [if_neg (fun h => absurd (hs.symm.trans h.1)
      (by decide : ¬ ("Gene" : String) = "Compound"))]
    rw [if_pos (⟨rfl, hs, ht⟩ :
        ("both" : String) = "both" ∧ e.source_id.1 = "Gene" ∧
          e.target_id.1 = "Compound")]
  · rw [classifyEdge, hk, hd,
      show normKind (some "binds") = "binds" from by decide,
      show normDirec none = "both" from by decide]
    unfold classifyKinded
    rw [if_pos (⟨rfl, Or.inr rfl⟩ :
        ("binds" : String) = "binds" ∧
          (("both" : String) = "forward" ∨ ("both" : String) = "both"))]
    rw [if_pos (⟨hs, ht⟩ :
        e.source_id.1 = "Compound" ∧ e.target_id.1 = "Gene")]
  · rw [classifyEdge, hk, hd,
      show normKind (some "binds") = "binds" from by decide,
      show normDirec (some "forward") = "forward" from by decide]
    unfold classifyKinded
    rw [if_pos (⟨rfl, Or.inl rfl⟩ :
        ("binds" : String) = "binds" ∧
          (("forward" : String) = "forward" ∨ ("forward" : String) = "both"))]
    rw [if_pos (⟨hs, ht⟩ :
        e.source_id.1 = "Compound" ∧ e.target_id.1 = "Gene")]
  · rw [classifyEdge, hk, hd,
      show normKind (some "binds") = "binds" from by decide,
      show normDirec (some "both") = "both" from by decide]
    unfold classifyKinded
    rw [if_pos (⟨rfl, Or.inr rfl⟩ :
        ("binds" : String) = "binds" ∧
          (("both" : String) = "forward" ∨ ("both" : String) = "both"))]
    rw [if_pos (⟨hs, ht⟩ :
        e.source_id.1 = "Compound" ∧ e.target_id.1 = "Gene")]
  · rw [classifyEdge, hk, hd,
      show normKind (some "binds") = "binds" from by decide,
      show normDirec (some "forward") = "forward" from by decide]
    unfold classifyKinded
    rw [if_pos (⟨rfl, Or.inl rfl⟩ :
        ("binds" : String) = "binds" ∧
          (("forward" : String) = "forward" ∨ ("forward" : String) = "both"))]
    rw [if_neg (fun h => absurd (hs.symm.trans h.1)
      (by decide : ¬ ("Gene" : String) = "Compound"))]
    rw [if_neg (fun h => absurd h.1
      (by decide : ¬ ("forward" : String) = "both"))]

/-- Witness for C2 (amended): concrete `binds` records exercising all five
conjuncts — absent+swapped emits swapped, absent+canonical emits as-is,
forward+canonical emits as-is, both+canonical emits as-is, forward+swapped
is dropped. -/
theorem binds_absent_direction_defaults_to_both_witness :
    (classifyEdge
        ⟨some "binds", none, ("Gene", "2064"), ("Compound", "DB00072"),
          .pnone⟩ =
      some (.drugTargets "DB00072" "2064" "")) ∧
    (classifyEdge
        ⟨some "binds", none, ("Compound", "DB00072"), ("Gene", "2064"),
          .pnone⟩ =
      some (.drugTargets "DB00072" "2064" "")) ∧
    (classifyEdge
        ⟨some "binds", some "forward", ("Compound", "DB00072"),
          ("Gene", "2064"), .pnone⟩ =
      some (.drugTargets "DB00072" "2064" "")) ∧
    (classifyEdge
        ⟨some "binds", some "both", ("Compound", "DB00072"), ("Gene", "2064"),
          .pnone⟩ =
      some (.drugTargets "DB00072" "2064" "")) ∧
    (classifyEdge
        ⟨some "binds", some "forward", ("Gene", "2064"),
          ("Compound", "DB00072"), .pnone⟩ = none) :=
  ⟨(binds_absent_direction_defaults_to_both _ rfl).1 rfl rfl rfl,
    (binds_absent_direction_defaults_to_both _ rfl).2.1 rfl rfl rfl,
    (binds_absent_direction_defaults_to_both _ rfl).2.2.1 rfl rfl rfl,
    (binds_absent_direction_defaults_to_both _ rfl).2.2.2.1 rfl rfl rfl,
    (binds_absent_direction_defaults_to_both _ rfl).2.2.2.2 rfl rfl rfl⟩

/-- C3: a `binds` record whose direction tag is `reverse` is dropped by the
edge loop regardless of its endpoint kinds: `reverse` is not in
`{"forward", "both"}`, and no other relation branch matches. -/
theorem binds_reverse_dropped (e : HetEdge) (hk : e.kind = some "binds")
    (hd : e.direction = some "reverse") : classifyEdge e = none := by
  rw [classifyEdge, hk, hd,
    show normKind (some "binds") = "binds" from by decide,
    show normDirec (some "reverse") = "reverse" from by decide]
  unfold classifyKinded
  rw [if_neg (fun h => absurd h.2 (by decide :
      ¬ (("reverse" : String) = "forward" ∨ ("reverse" : String) = "both")))]
  rw [if_neg (fun h => absurd h.1 (by decide :
      ¬ ("binds" : String) = "treats"))]
  rw [if_neg (fun h => absurd h.1 (by decide :
      ¬ ("binds" : String) = "associates"))]
  rw [if_neg (fun h => absurd h.1 (by decide :
      ¬ ("binds" : String) = "causes"))]

/-- Witness for C3: a concrete reverse-direction `binds` record (with the
endpoint kinds even in canonical order) is dropped. -/
theorem binds_reverse_dropped_witness :
    classifyEdge
        ⟨some "binds", some "reverse", ("Compound", "DB00014"),
          ("Gene", "2740"), .pnone⟩ = none :=
  binds_reverse_dropped _ rfl rfl

/-! ## STITCH-id parsing, evidence scenarios, dedup invariants, mapping filter -/

/-- C6: `extract_pubchem_cid` maps `'CID000010917'` to `10917` and `'CID0'`
to `0` (strict pattern match, leading zeros stripped), maps a non-matching
string such as `'ABC123'` to `None`, and the `dropna` step then excludes
that row from the mapping input without an error. -/
theorem extract_pubchem_cid_scenarios :
    extract_pubchem_cid "CID000010917" = some 10917 ∧
    extract_pubchem_cid "CID0" = some 0 ∧
    extract_pubchem_cid "ABC123" = none ∧
    dropUnparsed
        [("CID000010917", "C0000001"), ("ABC123", "C0000002"),
          ("CID0", "C0000003")] =
      [("CID000010917", "C0000001", 10917), ("CID0", "C0000003", 0)] := by
  refine ⟨by decide, by decide, by decide, by decide⟩

/-- C7: `evidence_string` evaluates its branches in a fixed priority order
and the first applicable branch wins: `{"sources": ["b","a"]}` gives the
sorted semicolon-join `"a;b"`, `{"pmids": [1,2,3]}` gives the count summary
`"pmids:3"`, an empty or absent payload gives `""`, a `"source"` string
shadows a `"sources"` list, and a `"sources"` list shadows `"pmids"` —
branches are never combined. -/
theorem evidence_string_priority_scenarios :
    evidence_string (.pdict [("sources", .plist [.pstr "b", .pstr "a"])]) =
        "a;b" ∧
    evidence_string (.pdict [("pmids", .plist [.pint 1, .pint 2, .pint 3])]) =
        "pmids:3" ∧
    evidence_string (.pdict []) = "" ∧
    evidence_string .pnone = "" ∧
    evidence_string
        (.pdict [("source", .pstr "DisGeNET"),
          ("sources", .plist [.pstr "b", .pstr "a"])]) = "DisGeNET" ∧
    evidence_string
        (.pdict [("sources", .plist [.pstr "x"]),
          ("pmids", .plist [.pint 1, .pint 2])]) = "x" := by
  refine ⟨by decide, by decide, by decide, by decide, by decide, by decide⟩

/-- C9 counterexample: the target-nodes table of
`extract_chembl_sqlite_cli.py` is deduplicated only on its `uniprot` column
before the name merge; when one accession carries both a NULL and an
empty-string preferred name, the `fillna` step collapses them into two
identical full rows, so the written table is not fully deduplicated. -/
theorem targets_table_duplicate_rows :
    ¬ (buildTargets ["P35354"] [("P35354", some ""), ("P35354", none)]).Nodup
      := by decide

/-- Inserting into a sorted list permutes consing. -/
theorem insertSortedBy_perm {α : Type} (le : α → α → Bool) (x : α) :
    ∀ l : List α, List.Perm (insertSortedBy le x l) (x :: l) := by
  intro l
  induction l with
  | nil => exact List.Perm.refl _
  | cons y ys ih =>
    rw [insertSortedBy]
    by_cases h : le x y = true
    · rw [if_pos h]
    · rw [if_neg h]
      exact (ih.cons y).trans (List.Perm.swap x y ys)

/-- The `sort_values` model only permutes its input. -/
theorem sortBy_perm {α : Type} (le : α → α → Bool) (l : List α) :
    List.Perm (sortBy le l) l := by
  induction l with
  | nil => exact List.Perm.refl _
  | cons y ys ih =>
    rw [sortBy, List.foldr_cons]
    exact (insertSortedBy_perm le y _).trans (ih.cons y)

/-- String insertion also permutes consing. -/
theorem insertSorted_perm (x : String) :
    ∀ l : List String, List.Perm (insertSorted x l) (x :: l) := by
  intro l
  induction l with
  | nil => exact List.Perm.refl _
  | cons y ys ih =>
    rw [insertSorted]
    by_cases h : strLe x y = true
    · rw [if_pos h]
    · rw [if_neg h]
      exact (ih.cons y).trans (List.Perm.swap x y ys)

/-- The Python `sorted` model only permutes its input. -/
theorem sortStrings_perm (l : List String) :
    List.Perm (sortStrings l) l := by
  induction l with
  | nil => exact List.Perm.refl _
  | cons y ys ih =>
    rw [sortStrings, List.foldr_cons]
    exact (insertSorted_perm y _).trans (ih.cons y)

/-- The written unmapped-id residual has pairwise distinct rows: it sorts a
filter of the deduplicated seed ids. -/
theorem nodup_missing_ids (seeds : List String)
    (mp : List (String × String)) : (missing_ids seeds mp).Nodup := by
  rw [missing_ids]
  exact ((sortStrings_perm _).nodup_iff).mpr ((nodup_dropDups _).filter _)

/-- Every row the left merge produces for an edge key carries that key in
its first two components. -/
theorem freqRowsFor_key
    (freq : List (String × String × Option String × Option String))
    (e : String × String)
    (r : String × String × Option String × Option String)
    (hr : r ∈ freqRowsFor freq e) : r.1 = e.1 ∧ r.2.1 = e.2 := by
  rw [freqRowsFor] at hr
  by_cases h : (freq.filter fun q => q.1 = e.1 ∧ q.2.1 = e.2).isEmpty = true
  · rw [if_pos h] at hr
    rw [List.mem_singleton.mp hr]
    exact ⟨rfl, rfl⟩
  · rw [if_neg h] at hr
    obtain ⟨q, _, rfl⟩ := List.mem_map.mp hr
    exact ⟨rfl, rfl⟩

/-- The rows the left merge produces for one edge key are pairwise
distinct, given deduplicated frequency rows. -/
theorem nodup_freqRowsFor
    (freq : List (String × String × Option String × Option String))
    (hfreq : freq.Nodup) (e : String × String) :
    (freqRowsFor freq e).Nodup := by
  rw [freqRowsFor]
  by_cases h : (freq.filter fun q => q.1 = e.1 ∧ q.2.1 = e.2).isEmpty = true
  · rw [if_pos h]
    exact List.nodup_singleton _
  · rw [if_neg h]
    refine List.Nodup.map_on ?_ (hfreq.filter _)
    intro q hq q' hq' heq
    have h1 := (List.mem_filter.mp hq).2
    have h2 := (List.mem_filter.mp hq').2
    simp only [decide_eq_true_eq] at h1 h2
    obtain ⟨a, b, c, d⟩ := q
    obtain ⟨a', b', c', d'⟩ := q'
    simp_all

/-- The written SIDER drug–side-effect table has pairwise distinct rows:
distinct edge keys yield rows differing in their key components, and within
one key the deduplicated frequency rows yield distinct rows. -/
theorem nodup_edges_freq (allSe : List SiderRow)
    (freqRows : List (String × String × Option String × Option String)) :
    (edges_freq allSe freqRows).Nodup := by
  rw [edges_freq, List.nodup_flatMap]
  constructor
  · intro e _
    exact nodup_freqRowsFor _ (nodup_dropDups _) e
  · refine (nodup_dropDups _).imp ?_
    intro a b hne
    intro r hra hrb
    have h1 := freqRowsFor_key _ _ _ hra
    have h2 := freqRowsFor_key _ _ _ hrb
    exact hne (Prod.ext (h1.1.symm.trans h2.1) (h1.2.symm.trans h2.2))

/-- The written full SIDER→ChEMBL mapping has pairwise distinct rows: it is
a `sort_values` permutation of a deduplicated projection. -/
theorem nodup_map_full (edges : List (String × String))
    (uc : List (Nat × String)) : (map_full edges uc).Nodup :=
  ((sortBy_perm mapRowLe _).nodup_iff).mpr (nodup_dropDups _)

/-- The written phase-4 SIDER→ChEMBL mapping has pairwise distinct rows: it
is a filter of the full mapping. -/
theorem nodup_map_phase4 (edges : List (String × String))
    (uc : List (Nat × String)) (p4ids : List String) :
    (map_phase4 edges uc p4ids).Nodup :=
  (nodup_map_full edges uc).filter _

/-- C9 (amended): every output table the pipeline writes — the four Hetionet
node tables and four edge tables, the ChEMBL drug-node and drug-target edge
tables, the SIDER side-effect node table and drug–side-effect edge table,
the ChEMBL→DrugBank mapping and its unmapped-id residual, the full and
phase-4 SIDER→ChEMBL mappings, and the UniProt→Entrez mapping — contains
pairwise distinct full rows; the single exception is the ChEMBL target-nodes
table, which is deduplicated only on its `uniprot` key column before the
name left-merge and `fillna`, and can contain identical full rows. -/
theorem dedup_outputs_nodup (hetNodes : List HetNode)
    (hetEdges : List HetEdge) (drugRows : List (String × String))
    (chemblEdgeRows : List (String × String × String × String))
    (siderRows : List SiderRow)
    (freqRows : List (String × String × Option String × Option String))
    (seeds : List String) (mp : List (String × String))
    (siderEdgeRows : List (String × String)) (uc : List (Nat × String))
    (p4ids : List String) (targets : List (Option String))
    (lines : List (List String)) :
    (nodes_compound_table hetNodes).Nodup ∧
    (nodes_gene_table hetNodes).Nodup ∧
    (nodes_disease_table hetNodes).Nodup ∧
    (nodes_sideeffect_table hetNodes).Nodup ∧
    (drug_targets_table hetEdges).Nodup ∧
    (drug_treats_table hetEdges).Nodup ∧
    (gene_disease_table hetEdges).Nodup ∧
    (drug_se_table hetEdges).Nodup ∧
    (drugs_table drugRows).Nodup ∧
    (edges_drug_targets_chembl chemblEdgeRows).Nodup ∧
    (se_nodes siderRows).Nodup ∧
    (edges_freq siderRows freqRows).Nodup ∧
    (mergedPairs seeds mp).Nodup ∧
    (missing_ids seeds mp).Nodup ∧
    (map_full siderEdgeRows uc).Nodup ∧
    (map_phase4 siderEdgeRows uc p4ids).Nodup ∧
    (uniprotToEntrez targets lines).Nodup :=
  ⟨nodup_dropDups _, nodup_dropDups _, nodup_dropDups _, nodup_dropDups _,
    nodup_dropDups _, nodup_dropDups _, nodup_dropDups _, nodup_dropDups _,
    nodup_dropDups _, nodup_dropDups _, nodup_dropDups _,
    nodup_edges_freq siderRows freqRows,
    nodup_dropDups _, nodup_missing_ids seeds mp,
    nodup_map_full siderEdgeRows uc, nodup_map_phase4 siderEdgeRows uc p4ids,
    nodup_dropDups _⟩

/-- C10: every (uniprot, entrez_id) row emitted by
`map_uniprot_to_entrez.py` has a uniprot value belonging to the
whitespace-trimmed uniprot-id set of the input target-nodes table, and
originates from an input line with exactly three tab-separated fields whose
mapping type is `"GeneID"`; lines of any other length or type contribute
nothing. -/
theorem uniprotToEntrez_sound (targets : List (Option String))
    (lines : List (List String)) (p : String × String)
    (hp : p ∈ uniprotToEntrez targets lines) :
    p.1 ∈ target_uniprot_set targets ∧
      ∃ row ∈ lines, row = [p.1, "GeneID", p.2] := by
  rw [uniprotToEntrez, mem_dropDups] at hp
  obtain ⟨row, hrow, hf⟩ := List.mem_filterMap.mp hp
  split at hf
  · next u t v =>
    by_cases hc : t = "GeneID" ∧ u ∈ target_uniprot_set targets
    · rw [if_pos hc] at hf
      have hp' : (u, v) = p := Option.some.injEq _ _ ▸ hf
      subst hp'
      rw [hc.1] at hrow
      exact ⟨hc.2, ⟨[u, "GeneID", v], hrow, rfl⟩⟩
    · rw [if_neg hc] at hf
      simp at hf
  · simp at hf

/-- Witness for C10: a concrete mapping row produced from a mixed input
(one well-formed `GeneID` line, a non-`GeneID` line, a line for an id
outside the target set, and a two-field line). -/
theorem uniprotToEntrez_sound_witness :
    ("P35354", "5743").1 ∈ target_uniprot_set [some " P35354 ", none] ∧
      ∃ row ∈ [["P35354", "GeneID", "5743"],
          ["P35354", "UniProtKB-ID", "PGH2_HUMAN"],
          ["Q00000", "GeneID", "1"], ["P35354", "GeneID"]],
        row = [("P35354", "5743").1, "GeneID", ("P35354", "5743").2] :=
  uniprotToEntrez_sound [some " P35354 ", none]
    [["P35354", "GeneID", "5743"],
      ["P35354", "UniProtKB-ID", "PGH2_HUMAN"],
      ["Q00000", "GeneID", "1"], ["P35354", "GeneID"]]
    ("P35354", "5743") (by decide)

end KG
